import Mathlib

/-!
Verification of the dwave-samplers caller layer:
`tabu/sampler.py` (TabuSampler) and `dwave/samplers/orang/samplers.py`
(OrangSolver, OrangSampler).

Machine reals (numpy doubles) are embedded as rationals; Python ints as
`ℤ`/`ℕ`.  The compiled engines (`TabuSearch`, `solve_bqm_wrapper`,
`sample_bqm_wrapper`) and the `dwave_networkx` treewidth routine are not
part of the sources; where a claim depends on them they are modelled from
the specification, each such definition carrying a doc comment starting
with `Modelled from the spec:`.
-/

namespace DWaveSamplers

/-! ## Quadratic Model Store

A binary quadratic model over `n` 0-based variables: linear vector `h`,
upper-triangular pairwise weights `J` (entries meaningful for `i < j`),
scalar `offset`.  Objective over binary assignments:
`E(x) = offset + Σ h[i]·x[i] + Σ_{i<j} J[i][j]·x[i]·x[j]`. -/

structure BQM (n : ℕ) where
  h : Fin n → ℚ
  J : Fin n → Fin n → ℚ
  offset : ℚ

/-- The quadratic objective evaluated on a rational-valued vector. -/
def energyQ {n : ℕ} (bqm : BQM n) (x : Fin n → ℚ) : ℚ :=
  bqm.offset + (∑ i, bqm.h i * x i) +
    ∑ i, ∑ j, (if i < j then bqm.J i j * x i * x j else 0)

/-- Interpret a boolean as the binary value 0 or 1. -/
def boolToQ (b : Bool) : ℚ := if b then 1 else 0

/-- The objective evaluated on a binary (boolean) assignment. -/
def energyB {n : ℕ} (bqm : BQM n) (x : Fin n → Bool) : ℚ :=
  energyQ bqm (fun i => boolToQ (x i))

/-! ## TabuSampler._bqm_to_tabu_qubo

From `tabu/sampler.py` lines 212-225: the dense matrix `ud` has the linear
biases on the diagonal and the quadratic biases in the upper triangle; the
returned matrix is `ud * 0.5 + (ud * 0.5)ᵀ`. -/

/-- The dense matrix `ud` of `_bqm_to_tabu_qubo` before symmetrization:
diagonal = linear biases, strict upper triangle = quadratic biases. -/
def ud {n : ℕ} (bqm : BQM n) : Fin n → Fin n → ℚ :=
  fun i j => if i = j then bqm.h i else if i < j then bqm.J i j else 0

/-- The matrix returned by `_bqm_to_tabu_qubo`: `ud *= .5; symm = ud + ud.T`. -/
def tabuQubo {n : ℕ} (bqm : BQM n) : Fin n → Fin n → ℚ :=
  fun i j => ud bqm i j * (1/2) + ud bqm j i * (1/2)

/-- The quadratic form `xᵀ Q x`. -/
def quadForm {n : ℕ} (Q : Fin n → Fin n → ℚ) (x : Fin n → ℚ) : ℚ :=
  ∑ i, ∑ j, x i * Q i j * x j

lemma ud_decomp {n : ℕ} (bqm : BQM n) (i j : Fin n) :
    ud bqm i j = (if i = j then bqm.h i else 0) + (if i < j then bqm.J i j else 0) := by
  unfold ud
  rcases lt_trichotomy i j with hlt | heq | hgt
  · simp [hlt, ne_of_lt hlt]
  · simp [heq, lt_irrefl]
  · simp [not_lt_of_lt hgt, (ne_of_lt hgt).symm]

lemma quadForm_tabuQubo {n : ℕ} (bqm : BQM n) (x : Fin n → ℚ) :
    quadForm (tabuQubo bqm) x = ∑ i, ∑ j, x i * ud bqm i j * x j := by
  unfold quadForm tabuQubo
  calc ∑ i, ∑ j, x i * (ud bqm i j * (1/2) + ud bqm j i * (1/2)) * x j
      = ∑ i, ∑ j, (x i * (ud bqm i j * (1/2)) * x j
          + x i * (ud bqm j i * (1/2)) * x j) := by
        refine Finset.sum_congr rfl fun i _ => Finset.sum_congr rfl fun j _ => by ring
    _ = (∑ i, ∑ j, x i * (ud bqm i j * (1/2)) * x j)
          + ∑ i, ∑ j, x i * (ud bqm j i * (1/2)) * x j := by
        rw [← Finset.sum_add_distrib]
        exact Finset.sum_congr rfl fun i _ => Finset.sum_add_distrib
    _ = (∑ i, ∑ j, x i * (ud bqm i j * (1/2)) * x j)
          + ∑ i, ∑ j, x i * (ud bqm i j * (1/2)) * x j := by
        congr 1
        rw [Finset.sum_comm]
        exact Finset.sum_congr rfl fun i _ => Finset.sum_congr rfl fun j _ => by ring
    _ = ∑ i, ∑ j, x i * ud bqm i j * x j := by
        rw [← Finset.sum_add_distrib]
        refine Finset.sum_congr rfl fun i _ => ?_
        rw [← Finset.sum_add_distrib]
        exact Finset.sum_congr rfl fun j _ => by ring

lemma quadForm_ud {n : ℕ} (bqm : BQM n) (x : Fin n → ℚ)
    (hx : ∀ i, x i = 0 ∨ x i = 1) :
    (∑ i, ∑ j, x i * ud bqm i j * x j) = energyQ bqm x - bqm.offset := by
  have hsplit : (∑ i, ∑ j, x i * ud bqm i j * x j)
      = (∑ i, ∑ j, (if i = j then x i * bqm.h i * x j else 0))
        + ∑ i, ∑ j, (if i < j then bqm.J i j * x i * x j else 0) := by
    rw [← Finset.sum_add_distrib]
    refine Finset.sum_congr rfl fun i _ => ?_
    rw [← Finset.sum_add_distrib]
    refine Finset.sum_congr rfl fun j _ => ?_
    rw [ud_decomp]
    split_ifs with h1 h2 h2 <;> ring
  have hdiag : (∑ i, ∑ j, (if i = j then x i * bqm.h i * x j else 0))
      = ∑ i, bqm.h i * x i := by
    refine Finset.sum_congr rfl fun i _ => ?_
    rw [Finset.sum_ite_eq Finset.univ i (fun j => x i * bqm.h i * x j)]
    rcases hx i with h0 | h1
    · simp [h0]
    · simp [h1]
  rw [hsplit, hdiag]
  unfold energyQ
  ring

/-- C8: the dense matrix built by `TabuSampler._bqm_to_tabu_qubo` is
symmetric, and on every binary assignment its quadratic form equals the
model objective minus the offset. -/
theorem bqm_to_tabu_qubo_correct {n : ℕ} (bqm : BQM n) (x : Fin n → ℚ)
    (hx : ∀ i, x i = 0 ∨ x i = 1) :
    (∀ i j, tabuQubo bqm i j = tabuQubo bqm j i) ∧
      quadForm (tabuQubo bqm) x = energyQ bqm x - bqm.offset := by
  constructor
  · intro i j
    unfold tabuQubo
    ring
  · rw [quadForm_tabuQubo]
    exact quadForm_ud bqm x hx

/-- A concrete 2-variable model used to instantiate theorems with hypotheses. -/
def bqmEx2 : BQM 2 :=
  ⟨fun i => if i.val = 0 then 1 else -2,
   fun i j => if i.val = 0 ∧ j.val = 1 then 3 else 0,
   (1/2)⟩

/-- A concrete binary vector for `bqmEx2`. -/
def xEx2 : Fin 2 → ℚ := fun i => if i.val = 0 then 1 else 0

/-- Witness for C8 at the concrete model `bqmEx2` and assignment `xEx2`. -/
theorem bqm_to_tabu_qubo_correct_witness :
    (∀ i, xEx2 i = 0 ∨ xEx2 i = 1) ∧
      ((∀ i j, tabuQubo bqmEx2 i j = tabuQubo bqmEx2 j i) ∧
        quadForm (tabuQubo bqmEx2) xEx2 = energyQ bqmEx2 xEx2 - bqmEx2.offset) :=
  ⟨by decide, bqm_to_tabu_qubo_correct bqmEx2 xEx2 (by decide)⟩

/-! ## Brute-force energy spectrum and the optimize-mode engine ("solve")

`solve_bqm_wrapper` is compiled code not present in the sources; per §4.4
of the spec its contract is: up to `max_solutions` distinct
(assignment, energy) pairs sorted ascending by energy, exact whenever no
intermediate truncation occurs.  We model it by the brute-force sorted
spectrum truncated to `max_solutions`. -/

/-- The assignment encoded by the bits of `m` (variable `i` reads bit `i`). -/
def bits (n m : ℕ) : Fin n → Bool := fun i => m.testBit i.val

/-- All `2^n` (assignment, energy) pairs of a model, in code order. -/
def spectrum {n : ℕ} (bqm : BQM n) : List ((Fin n → Bool) × ℚ) :=
  (List.range (2 ^ n)).map fun m => (bits n m, energyB bqm (bits n m))

/-- Comparison of (assignment, energy) pairs by energy. -/
def energyLE {n : ℕ} (p q : (Fin n → Bool) × ℚ) : Prop := p.2 ≤ q.2

instance {n : ℕ} : DecidableRel (@energyLE n) :=
  fun p q => inferInstanceAs (Decidable (p.2 ≤ q.2))

instance {n : ℕ} : IsTotal ((Fin n → Bool) × ℚ) (@energyLE n) :=
  ⟨fun a b => le_total a.2 b.2⟩

instance {n : ℕ} : IsTrans ((Fin n → Bool) × ℚ) (@energyLE n) :=
  ⟨fun _ _ _ hab hbc => le_trans hab hbc⟩

/-- The full spectrum sorted ascending by energy (stable sort). -/
def sortedSpectrum {n : ℕ} (bqm : BQM n) : List ((Fin n → Bool) × ℚ) :=
  List.insertionSort (@energyLE n) (spectrum bqm)

/-- Modelled from the spec: `solve_bqm_wrapper`
(`dwave/samplers/orang/solve.pyx`, absent from the sources) — §4.4: given
the junction tree and `max_solutions`, return up to `max_solutions`
distinct (assignment, energy) pairs sorted ascending by energy, exact
when `max_solutions` avoids truncation; §6: length
`min(max_solutions, 2^n)`. -/
def solve_bqm_wrapper {n : ℕ} (bqm : BQM n) (max_solutions : ℕ) :
    List ((Fin n → Bool) × ℚ) :=
  (sortedSpectrum bqm).take max_solutions

lemma bits_inj_below {n a b : ℕ} (ha : a < 2 ^ n) (hb : b < 2 ^ n)
    (h : bits n a = bits n b) : a = b := by
  refine Nat.eq_of_testBit_eq fun i => ?_
  by_cases hi : i < n
  · exact congrFun h ⟨i, hi⟩
  · push_neg at hi
    have h2 : 2 ^ n ≤ 2 ^ i := Nat.pow_le_pow_right (by norm_num) hi
    rw [Nat.testBit_eq_false_of_lt (lt_of_lt_of_le ha h2),
        Nat.testBit_eq_false_of_lt (lt_of_lt_of_le hb h2)]

lemma spectrum_map_fst {n : ℕ} (bqm : BQM n) :
    (spectrum bqm).map Prod.fst = (List.range (2 ^ n)).map (bits n) := by
  simp [spectrum, List.map_map, Function.comp]

lemma spectrum_fst_nodup {n : ℕ} (bqm : BQM n) :
    ((spectrum bqm).map Prod.fst).Nodup := by
  rw [spectrum_map_fst]
  refine List.Nodup.map_on ?_ (List.nodup_range _)
  intro a ha b hb h
  exact bits_inj_below (List.mem_range.mp ha) (List.mem_range.mp hb) h

lemma spectrum_length {n : ℕ} (bqm : BQM n) : (spectrum bqm).length = 2 ^ n := by
  simp [spectrum]

lemma sortedSpectrum_perm {n : ℕ} (bqm : BQM n) :
    (sortedSpectrum bqm).Perm (spectrum bqm) :=
  List.perm_insertionSort _ _

lemma sortedSpectrum_sorted {n : ℕ} (bqm : BQM n) :
    List.Sorted (@energyLE n) (sortedSpectrum bqm) :=
  List.sorted_insertionSort _ _

lemma sortedSpectrum_length {n : ℕ} (bqm : BQM n) :
    (sortedSpectrum bqm).length = 2 ^ n := by
  rw [(sortedSpectrum_perm bqm).length_eq, spectrum_length]

lemma sortedSpectrum_fst_nodup {n : ℕ} (bqm : BQM n) :
    ((sortedSpectrum bqm).map Prod.fst).Nodup :=
  ((sortedSpectrum_perm bqm).symm.map Prod.fst).nodup (spectrum_fst_nodup bqm)

lemma solve_length {n : ℕ} (bqm : BQM n) (k : ℕ) :
    (solve_bqm_wrapper bqm k).length = min k (2 ^ n) := by
  simp [solve_bqm_wrapper, sortedSpectrum_length]

lemma solve_fst_nodup {n : ℕ} (bqm : BQM n) (k : ℕ) :
    ((solve_bqm_wrapper bqm k).map Prod.fst).Nodup :=
  (sortedSpectrum_fst_nodup bqm).sublist
    ((List.take_sublist k (sortedSpectrum bqm)).map Prod.fst)

lemma mem_spectrum {n : ℕ} (bqm : BQM n) {m : ℕ} (hm : m < 2 ^ n) :
    (bits n m, energyB bqm (bits n m)) ∈ spectrum bqm := by
  unfold spectrum
  exact List.mem_map_of_mem _ (List.mem_range.mpr hm)

/-- C1: the solve path returns up to `max_solutions` distinct
(assignment, energy) pairs sorted ascending by energy; the first returned
energy is the true global minimum (it bounds every assignment's energy
and is attained); and when `max_solutions ≥ 2^n` the returned list equals
the brute-force-sorted energy spectrum exactly. -/
theorem solve_sorted_exact_topk {n : ℕ} (bqm : BQM n) (k : ℕ) (hk : 1 ≤ k) :
    List.Sorted (@energyLE n) (solve_bqm_wrapper bqm k) ∧
    (solve_bqm_wrapper bqm k).length ≤ k ∧
    ((solve_bqm_wrapper bqm k).map Prod.fst).Nodup ∧
    (∃ p rest, solve_bqm_wrapper bqm k = p :: rest ∧
      (∀ m, m < 2 ^ n → p.2 ≤ energyB bqm (bits n m)) ∧
      (∃ m, m < 2 ^ n ∧ p = (bits n m, energyB bqm (bits n m)))) ∧
    (2 ^ n ≤ k → solve_bqm_wrapper bqm k = sortedSpectrum bqm) := by
  have hne : sortedSpectrum bqm ≠ [] := by
    intro h
    have hl := sortedSpectrum_length bqm
    rw [h] at hl
    have hp : 0 < 2 ^ n := Nat.pos_pow_of_pos n (by norm_num)
    simp only [List.length_nil] at hl
    omega
  obtain ⟨p, rest, hcons⟩ := List.exists_cons_of_ne_nil hne
  refine ⟨?_, ?_, solve_fst_nodup bqm k, ?_, ?_⟩
  · exact (sortedSpectrum_sorted bqm).sublist (List.take_sublist k _)
  · rw [solve_length]
    exact min_le_left _ _
  · obtain ⟨k', rfl⟩ : ∃ k', k = k' + 1 := ⟨k - 1, by omega⟩
    refine ⟨p, rest.take k', ?_, ?_, ?_⟩
    · rw [solve_bqm_wrapper, hcons, List.take_succ_cons]
    · intro m hm
      have hmem : (bits n m, energyB bqm (bits n m)) ∈ sortedSpectrum bqm :=
        (sortedSpectrum_perm bqm).mem_iff.mpr (mem_spectrum bqm hm)
      rw [hcons] at hmem
      rcases List.mem_cons.mp hmem with heq | hmemr
      · rw [← heq]
      · have hs := sortedSpectrum_sorted bqm
        rw [hcons] at hs
        exact List.rel_of_sorted_cons hs _ hmemr
    · have hp : p ∈ spectrum bqm :=
        (sortedSpectrum_perm bqm).mem_iff.mp (hcons ▸ List.mem_cons_self p rest)
      obtain ⟨m, hm, hpm⟩ := List.mem_map.mp hp
      exact ⟨m, List.mem_range.mp hm, hpm.symm⟩
  · intro hle
    rw [solve_bqm_wrapper]
    exact List.take_of_length_le (by rw [sortedSpectrum_length]; exact hle)

/-- Witness for C1 at the concrete model `bqmEx2` with `max_solutions = 1`. -/
theorem solve_sorted_exact_topk_witness :
    1 ≤ 1 ∧
    (List.Sorted (@energyLE 2) (solve_bqm_wrapper bqmEx2 1) ∧
    (solve_bqm_wrapper bqmEx2 1).length ≤ 1 ∧
    ((solve_bqm_wrapper bqmEx2 1).map Prod.fst).Nodup ∧
    (∃ p rest, solve_bqm_wrapper bqmEx2 1 = p :: rest ∧
      (∀ m, m < 2 ^ 2 → p.2 ≤ energyB bqmEx2 (bits 2 m)) ∧
      (∃ m, m < 2 ^ 2 ∧ p = (bits 2 m, energyB bqmEx2 (bits 2 m)))) ∧
    (2 ^ 2 ≤ 1 → solve_bqm_wrapper bqmEx2 1 = sortedSpectrum bqmEx2)) :=
  ⟨by decide, solve_sorted_exact_topk bqmEx2 1 (by decide)⟩

/-! ## Treewidth of an elimination order

`dwave_networkx.elimination_order_width` is an external collaborator whose
result the samplers compare against `properties['max_treewidth']`. -/

/-- Adjacency of the model's interaction graph (`bqm.adj`): two distinct
variables are adjacent when they carry a quadratic interaction. -/
def adjOf {n : ℕ} (bqm : BQM n) : Fin n → Fin n → Bool :=
  fun i j => decide (i ≠ j) && (decide (bqm.J i j ≠ 0) || decide (bqm.J j i ≠ 0))

/-- Maximum bag size over the elimination steps: the bag of the next
variable is itself plus its not-yet-eliminated neighbors, and eliminating
it interconnects those neighbors (fill-in edges). -/
def elimMaxBag {n : ℕ} : List (Fin n) → (Fin n → Fin n → Bool) → List (Fin n) → ℕ
  | [], _, _ => 0
  | v :: rest, adj, remaining =>
    let nbrs := remaining.filter fun u => decide (u ≠ v) && adj v u
    let remaining' := remaining.filter fun u => decide (u ≠ v)
    let adj' := fun a b => adj a b || (nbrs.contains a && nbrs.contains b && decide (a ≠ b))
    max (nbrs.length + 1) (elimMaxBag rest adj' remaining')

/-- Modelled from the spec: `dwave_networkx.elimination_order_width`
(external collaborator, absent from the sources) — §3/§4.3: processing the
order left to right, each bag is the eliminated variable plus its
not-yet-eliminated neighbors in the induced graph; the reported induced
treewidth is `max |bag| - 1`. -/
def elimination_order_width {n : ℕ} (bqm : BQM n) (order : List (Fin n)) : ℕ :=
  elimMaxBag order (adjOf bqm) (List.finRange n) - 1

/-! ## OrangSolver.sample -/

/-- Errors raised by the orang samplers: the treewidth `ValueError` of
`samplers.py` (its message names the offending bound and order), and the
parameter-precondition `ValueError` of the sampling wrapper. -/
inductive OrangErr (n : ℕ) where
  | treewidthExceeded (bound : ℕ) (order : List (Fin n))
  | parameterViolation
deriving DecidableEq

/-- The mutable per-object `properties` dict of the samplers. -/
structure SolverProps where
  max_treewidth : ℕ
deriving DecidableEq

/-- The class-level default `properties = {'max_treewidth': 25}`. -/
def defaultProps : SolverProps := ⟨25⟩

/-- The sample set built by `OrangSolver.sample`: rows with their
energies, and the per-row `num_occurrences`. -/
structure SolverOutput (n : ℕ) where
  rows : List ((Fin n → Bool) × ℚ)
  num_occurrences : List ℕ
deriving DecidableEq

/-- The `num_occurrences` array of `OrangSolver.sample` lines 163-169:
ones, then when `num_reads > max_samples`, `q, r = divmod(num_reads,
max_samples); num_occurrences *= q; num_occurrences[:r] += 1`. -/
def solver_num_occurrences (num_reads max_samples : ℕ) : List ℕ :=
  if max_samples < num_reads then
    (List.range max_samples).map fun i =>
      num_reads / max_samples + (if i < num_reads % max_samples then 1 else 0)
  else List.replicate max_samples 1

/-- `OrangSolver.sample` (samplers.py lines 126-174): empty-model early
return, treewidth guard, then the solve wrapper on
`max_samples = min(num_reads, 2**len(bqm))` and occurrence tiling. -/
def orangSolverSample {n : ℕ} (props : SolverProps) (bqm : BQM n) (num_reads : ℕ)
    (elimination_order : List (Fin n)) : Except (OrangErr n) (SolverOutput n) :=
  if n = 0 then
    Except.ok ⟨List.replicate num_reads ((fun _ => false), energyB bqm (fun _ => false)),
               List.replicate num_reads 1⟩
  else if props.max_treewidth < elimination_order_width bqm elimination_order then
    Except.error (OrangErr.treewidthExceeded props.max_treewidth elimination_order)
  else
    Except.ok ⟨solve_bqm_wrapper bqm (min num_reads (2 ^ n)),
               solver_num_occurrences num_reads (min num_reads (2 ^ n))⟩

lemma list_sum_range_map (f : ℕ → ℕ) (m : ℕ) :
    ((List.range m).map f).sum = ∑ i ∈ Finset.range m, f i := by
  induction m with
  | zero => simp
  | succ m ih =>
      rw [List.range_succ, List.map_append, List.sum_append, Finset.sum_range_succ, ih]
      simp

lemma sum_ite_lt (M R : ℕ) (hR : R ≤ M) :
    (∑ i ∈ Finset.range M, if i < R then 1 else 0) = R := by
  have hfil : (Finset.range M).filter (fun i => i < R) = Finset.range R := by
    ext i
    simp only [Finset.mem_filter, Finset.mem_range]
    omega
  rw [← Finset.sum_filter, hfil, Finset.sum_const, Finset.card_range, smul_eq_mul, mul_one]

lemma solver_num_occurrences_sum {n : ℕ} (r : ℕ) :
    (solver_num_occurrences r (min r (2 ^ n))).sum = r := by
  have hp : 0 < 2 ^ n := Nat.pos_pow_of_pos n (by norm_num)
  have hle : min r (2 ^ n) ≤ r := min_le_left _ _
  by_cases h : min r (2 ^ n) < r
  · have hpos : 0 < min r (2 ^ n) := lt_min (by omega) hp
    rw [solver_num_occurrences, if_pos h, list_sum_range_map, Finset.sum_add_distrib,
        Finset.sum_const, Finset.card_range, smul_eq_mul,
        sum_ite_lt _ _ (le_of_lt (Nat.mod_lt r hpos))]
    exact Nat.div_add_mod r (min r (2 ^ n))
  · rw [solver_num_occurrences, if_neg h]
    have : min r (2 ^ n) = r := by omega
    simp [this]

/-- C2: on a non-empty model within the treewidth bound,
`OrangSolver.sample` with `num_reads = r` succeeds with exactly
`min(r, 2^n)` distinct rows; the occurrences sum to exactly `r`, with the
excess reads assigned one extra each to the lowest-index rows first. -/
theorem solver_reads_tiling {n : ℕ} (props : SolverProps) (bqm : BQM n) (r : ℕ)
    (order : List (Fin n)) (hn : 0 < n)
    (hw : elimination_order_width bqm order ≤ props.max_treewidth) :
    ∃ out, orangSolverSample props bqm r order = Except.ok out ∧
      out.rows.length = min r (2 ^ n) ∧
      (out.rows.map Prod.fst).Nodup ∧
      out.num_occurrences.sum = r ∧
      (min r (2 ^ n) < r →
        ∀ i, ∀ hi : i < out.num_occurrences.length,
          out.num_occurrences.get ⟨i, hi⟩ =
            r / min r (2 ^ n) + (if i < r % min r (2 ^ n) then 1 else 0)) := by
  refine ⟨⟨solve_bqm_wrapper bqm (min r (2 ^ n)),
          solver_num_occurrences r (min r (2 ^ n))⟩, ?_, ?_, ?_, ?_, ?_⟩
  · rw [orangSolverSample, if_neg (by omega), if_neg (not_lt.mpr hw)]
  · rw [solve_length, min_assoc, min_self]
  · exact solve_fst_nodup bqm _
  · exact solver_num_occurrences_sum r
  · intro h i hi
    have h2 : 2 ^ n < r := by
      by_contra hc
      push_neg at hc
      rw [min_eq_left hc] at h
      exact lt_irrefl r h
    simp [solver_num_occurrences, if_pos h, List.get_eq_getElem, h2]

/-- A concrete 1-variable model with a null interaction matrix. -/
def bqmEx1 : BQM 1 := ⟨fun _ => 1, fun _ _ => 0, 0⟩

/-- Witness for C2 at `bqmEx1` with `num_reads = 3`. -/
theorem solver_reads_tiling_witness :
    (0 < 1 ∧ elimination_order_width bqmEx1 [0] ≤ defaultProps.max_treewidth) ∧
    (∃ out, orangSolverSample defaultProps bqmEx1 3 [0] = Except.ok out ∧
      out.rows.length = min 3 (2 ^ 1) ∧
      (out.rows.map Prod.fst).Nodup ∧
      out.num_occurrences.sum = 3 ∧
      (min 3 (2 ^ 1) < 3 →
        ∀ i, ∀ hi : i < out.num_occurrences.length,
          out.num_occurrences.get ⟨i, hi⟩ =
            3 / min 3 (2 ^ 1) + (if i < 3 % min 3 (2 ^ 1) then 1 else 0))) :=
  ⟨⟨by decide, by decide⟩, solver_reads_tiling defaultProps bqmEx1 3 [0] (by decide) (by decide)⟩

/-! ## OrangSampler.sample -/

/-- Abstraction of the probabilistic engine's forward/backward outputs
(Boltzmann draws, log partition function, exact marginals).  These are
real-valued log-sum-exp quantities computed by compiled code absent from
the sources, so they enter the model as an oracle. -/
structure SamplerOracle (n : ℕ) where
  draw : ℕ → Fin n → Bool
  logZ : ℚ
  varMarginal : Fin n → ℚ
  interactions : List (Fin n × Fin n)
  pairMarginal : List (List ℚ)

/-- The sample set built by `OrangSampler.sample`: rows with energies and
the `info` fields. -/
structure SamplerOutput (n : ℕ) where
  rows : List ((Fin n → Bool) × ℚ)
  log_partition_function : ℚ
  variable_marginals : Option (List (Fin n × ℚ))
  interaction_marginals : Option (List ((Fin n × Fin n) × List ℚ))

/-- Modelled from the spec: `sample_bqm_wrapper`
(`dwave/samplers/orang/sample.pyx`, absent from the sources) — §4.5, §6,
§7: `beta` must be a positive float and `num_reads` a positive integer;
violations are precondition errors reported synchronously to the caller.
On valid parameters it draws `num_reads` Boltzmann samples and returns
the probabilistic data, both abstracted by the oracle. -/
def sample_bqm_wrapper {n : ℕ} (oracle : SamplerOracle n) (bqm : BQM n) (beta : ℚ)
    (max_complexity : ℕ) (order : List (Fin n)) (marginals : Bool) (num_reads : ℤ)
    (seed : Option ℤ) : Except (OrangErr n) (SamplerOracle n × List (Fin n → Bool)) :=
  if beta ≤ 0 ∨ num_reads < 1 then Except.error OrangErr.parameterViolation
  else Except.ok (oracle, (List.range num_reads.toNat).map oracle.draw)

/-- `OrangSampler.sample` (samplers.py lines 308-374): empty-model early
return with `log_partition_function = 0.0` and empty marginal dicts,
treewidth guard, then the sampling wrapper followed by marginal
repackaging and energy computation. -/
def orangSamplerSample {n : ℕ} (props : SolverProps) (oracle : SamplerOracle n)
    (bqm : BQM n) (num_reads : ℤ) (elimination_order : List (Fin n)) (beta : ℚ)
    (marginals : Bool) (seed : Option ℤ) : Except (OrangErr n) (SamplerOutput n) :=
  if n = 0 then
    Except.ok ⟨List.replicate num_reads.toNat ((fun _ => false), energyB bqm (fun _ => false)),
               0,
               if marginals then some [] else none,
               if marginals then some [] else none⟩
  else if props.max_treewidth < elimination_order_width bqm elimination_order then
    Except.error (OrangErr.treewidthExceeded props.max_treewidth elimination_order)
  else
    match sample_bqm_wrapper oracle bqm beta
        (elimination_order_width bqm elimination_order + 1)
        elimination_order marginals num_reads seed with
    | Except.error e => Except.error e
    | Except.ok (data, draws) =>
        Except.ok ⟨draws.map (fun x => (x, energyB bqm x)),
                   data.logZ,
                   if marginals then
                     some (elimination_order.map fun i => (i, data.varMarginal i))
                   else none,
                   if marginals then some (data.interactions.zip data.pairMarginal)
                   else none⟩

/-- The empty binary quadratic model. -/
def bqmEmpty : BQM 0 := ⟨fun i => i.elim0, fun i _ => i.elim0, 0⟩

/-- A trivial oracle over zero variables. -/
def oracleEmpty : SamplerOracle 0 := ⟨fun _ i => i.elim0, 0, fun i => i.elim0, [], []⟩

/-- Counterexample to C5: a call to `OrangSampler.sample` on the empty
model with the non-positive `beta = -1` is not rejected — the degenerate
zero-variable path returns successfully without ever validating `beta`. -/
theorem sampler_validation_cex :
    (orangSamplerSample defaultProps oracleEmpty bqmEmpty 1 [] (-1) true none).isOk = true := by
  rfl

/-- C5 (amended): on a non-empty model that passes the treewidth check, a
non-positive `beta` or non-positive `num_reads` is rejected with the
wrapper's precondition `ValueError` — though only after the elimination
order and treewidth have been computed and checked, and with no samples
produced; the zero-variable path returns without validating either. -/
theorem sampler_validation_amended {n : ℕ} (props : SolverProps)
    (oracle : SamplerOracle n) (bqm : BQM n) (r : ℤ) (order : List (Fin n))
    (beta : ℚ) (marg : Bool) (seed : Option ℤ) (hn : 0 < n)
    (hw : elimination_order_width bqm order ≤ props.max_treewidth)
    (hbad : beta ≤ 0 ∨ r < 1) :
    orangSamplerSample props oracle bqm r order beta marg seed =
      Except.error OrangErr.parameterViolation := by
  rw [orangSamplerSample, if_neg (by omega), if_neg (not_lt.mpr hw),
      sample_bqm_wrapper, if_pos hbad]

/-- A trivial oracle over one variable. -/
def oracleEx1 : SamplerOracle 1 := ⟨fun _ _ => false, 0, fun _ => 0, [], []⟩

/-- Witness for the amended C5 at `bqmEx1` with `beta = -1`. -/
theorem sampler_validation_amended_witness :
    (0 < 1 ∧ elimination_order_width bqmEx1 [0] ≤ defaultProps.max_treewidth ∧
      ((-1 : ℚ) ≤ 0 ∨ (1 : ℤ) < 1)) ∧
    orangSamplerSample defaultProps oracleEx1 bqmEx1 1 [0] (-1) true none =
      Except.error OrangErr.parameterViolation :=
  ⟨⟨by decide, by decide, by decide⟩,
   sampler_validation_amended defaultProps oracleEx1 bqmEx1 1 [0] (-1) true none
     (by decide) (by decide) (by decide)⟩

/-- C4: both `OrangSolver.sample` and `OrangSampler.sample` raise the
treewidth `ValueError` — whose diagnostic carries the configured bound and
the offending order — exactly when the order's induced treewidth exceeds
`properties['max_treewidth']`; at or below the bound no such error is
raised. -/
theorem treewidth_guard {n : ℕ} (props : SolverProps) (oracle : SamplerOracle n)
    (bqm : BQM n) (r : ℕ) (ri : ℤ) (order : List (Fin n)) (beta : ℚ)
    (marg : Bool) (seed : Option ℤ) :
    (props.max_treewidth < elimination_order_width bqm order →
      orangSolverSample props bqm r order =
        Except.error (OrangErr.treewidthExceeded props.max_treewidth order) ∧
      orangSamplerSample props oracle bqm ri order beta marg seed =
        Except.error (OrangErr.treewidthExceeded props.max_treewidth order)) ∧
    (elimination_order_width bqm order ≤ props.max_treewidth →
      (∀ b o, orangSolverSample props bqm r order ≠
        Except.error (OrangErr.treewidthExceeded b o)) ∧
      (∀ b o, orangSamplerSample props oracle bqm ri order beta marg seed ≠
        Except.error (OrangErr.treewidthExceeded b o))) := by
  by_cases hn : n = 0
  · subst hn
    constructor
    · intro habs
      exfalso
      cases order with
      | nil => simp [elimination_order_width, elimMaxBag] at habs
      | cons a t => exact a.elim0
    · intro _
      exact ⟨fun b o => by simp [orangSolverSample],
             fun b o => by simp [orangSamplerSample]⟩
  · constructor
    · intro h
      constructor
      · rw [orangSolverSample, if_neg hn, if_pos h]
      · rw [orangSamplerSample, if_neg hn, if_pos h]
    · intro h
      constructor
      · intro b o
        rw [orangSolverSample, if_neg hn, if_neg (not_lt.mpr h)]
        simp
      · intro b o
        rw [orangSamplerSample, if_neg hn, if_neg (not_lt.mpr h)]
        cases hwr : sample_bqm_wrapper oracle bqm beta
            (elimination_order_width bqm order + 1) order marg ri seed with
        | error e =>
            have he : e = OrangErr.parameterViolation := by
              rw [sample_bqm_wrapper] at hwr
              by_cases hc : beta ≤ 0 ∨ ri < 1
              · rw [if_pos hc] at hwr
                exact (Except.error.inj hwr).symm
              · rw [if_neg hc] at hwr
                exact absurd hwr (by simp)
            subst he
            simp
        | ok d => simp

/-- A 3-variable triangle model (all three pairs interact). -/
def bqmTri : BQM 3 := ⟨fun _ => 0, fun i j => if i < j then 1 else 0, 0⟩

/-- A trivial oracle over three variables. -/
def oracleEx3 : SamplerOracle 3 := ⟨fun _ _ => false, 0, fun _ => 0, [], []⟩

/-- A properties dict with the treewidth bound lowered to 1. -/
def propsTW1 : SolverProps := ⟨1⟩

/-- Witness for C4: the triangle has induced treewidth 2, exceeding the
configured bound 1, and both samplers report exactly that bound and
order; the instantiation is obtained by applying the theorem. -/
theorem treewidth_guard_witness :
    (propsTW1.max_treewidth < elimination_order_width bqmTri [0, 1, 2] →
      orangSolverSample propsTW1 bqmTri 1 [0, 1, 2] =
        Except.error (OrangErr.treewidthExceeded propsTW1.max_treewidth [0, 1, 2]) ∧
      orangSamplerSample propsTW1 oracleEx3 bqmTri 1 [0, 1, 2] 1 true none =
        Except.error (OrangErr.treewidthExceeded propsTW1.max_treewidth [0, 1, 2])) ∧
    (elimination_order_width bqmTri [0, 1, 2] ≤ propsTW1.max_treewidth →
      (∀ b o, orangSolverSample propsTW1 bqmTri 1 [0, 1, 2] ≠
        Except.error (OrangErr.treewidthExceeded b o)) ∧
      (∀ b o, orangSamplerSample propsTW1 oracleEx3 bqmTri 1 [0, 1, 2] 1 true none ≠
        Except.error (OrangErr.treewidthExceeded b o))) :=
  treewidth_guard propsTW1 oracleEx3 bqmTri 1 1 [0, 1, 2] 1 true none

/-! ## Tabu Local-Search Engine

`TabuSearch` is compiled code absent from the sources; §4.1 of the spec
fixes its contract and algorithm, modelled here with the wall-clock
timeout abstracted as an iteration budget. -/

/-- Flip variable `i` of a binary assignment. -/
def flipVar {n : ℕ} (x : Fin n → Bool) (i : Fin n) : Fin n → Bool :=
  Function.update x i (!x i)

/-- The per-run mutable search state of §3: current assignment,
best-so-far assignment and energy, per-variable tabu-until counters,
iteration count. -/
structure TabuState (n : ℕ) where
  x : Fin n → Bool
  bestX : Fin n → Bool
  bestE : ℚ
  tabuUntil : Fin n → ℕ
  iter : ℕ

/-- Modelled from the spec: move selection (§4.1) — among variables not
currently tabu, or tabu but aspiring (the flip would set a new best-ever
energy), pick the flip of smallest resulting energy, ties broken by
lowest variable index. -/
def selectMove {n : ℕ} (bqm : BQM n) (s : TabuState n) : Option (Fin n) :=
  ((List.finRange n).filter fun i =>
      decide (s.tabuUntil i ≤ s.iter) || decide (energyB bqm (flipVar s.x i) < s.bestE)).foldl
    (fun acc i =>
      match acc with
      | none => some i
      | some j =>
          if energyB bqm (flipVar s.x i) < energyB bqm (flipVar s.x j) then some i
          else some j)
    none

/-- Modelled from the spec: one Tabu iteration (§4.1) — apply the selected
flip, refresh the tabu counter of the flipped variable, update the
best-so-far pair when improved. -/
def tabuStep {n : ℕ} (bqm : BQM n) (tenure : ℕ) (s : TabuState n) : TabuState n :=
  match selectMove bqm s with
  | none => { s with iter := s.iter + 1 }
  | some i =>
      let x' := flipVar s.x i
      let e' := energyB bqm x'
      { x := x'
        bestX := if e' < s.bestE then x' else s.bestX
        bestE := min e' s.bestE
        tabuUntil := Function.update s.tabuUntil i (s.iter + tenure)
        iter := s.iter + 1 }

/-- Modelled from the spec: the `TabuSearch` engine run (§4.1) — iterate
from the start state; best-so-far is initialized to the start
assignment. -/
def tabuRun {n : ℕ} (bqm : BQM n) (tenure : ℕ) (x0 : Fin n → Bool) (fuel : ℕ) :
    TabuState n :=
  (tabuStep bqm tenure)^[fuel] ⟨x0, x0, energyB bqm x0, fun _ => 0, 0⟩

/-- The assignment returned by `TabuSearch(...).bestSolution()`. -/
def bestSolution {n : ℕ} (bqm : BQM n) (x0 : Fin n → Bool) (tenure fuel : ℕ) :
    Fin n → Bool :=
  (tabuRun bqm tenure x0 fuel).bestX

lemma tabuRun_succ {n : ℕ} (bqm : BQM n) (tenure : ℕ) (x0 : Fin n → Bool) (k : ℕ) :
    tabuRun bqm tenure x0 (k + 1) = tabuStep bqm tenure (tabuRun bqm tenure x0 k) :=
  Function.iterate_succ_apply' _ _ _

lemma tabuStep_bestE_le {n : ℕ} (bqm : BQM n) (tenure : ℕ) (s : TabuState n) :
    (tabuStep bqm tenure s).bestE ≤ s.bestE := by
  rw [tabuStep]
  cases selectMove bqm s with
  | none => simp
  | some i => simp [min_le_right]

lemma tabuStep_bestE_eq {n : ℕ} (bqm : BQM n) (tenure : ℕ) (s : TabuState n)
    (h : s.bestE = energyB bqm s.bestX) :
    (tabuStep bqm tenure s).bestE = energyB bqm (tabuStep bqm tenure s).bestX := by
  rw [tabuStep]
  cases selectMove bqm s with
  | none => simpa using h
  | some i =>
      dsimp only
      by_cases hlt : energyB bqm (flipVar s.x i) < s.bestE
      · rw [if_pos hlt, min_eq_left (le_of_lt hlt)]
      · rw [if_neg hlt, min_eq_right (not_lt.mp hlt)]
        exact h

/-- C3: the Tabu engine's returned best assignment never has higher
energy than the starting assignment. -/
theorem tabu_monotone_improvement {n : ℕ} (bqm : BQM n) (x0 : Fin n → Bool)
    (tenure fuel : ℕ) :
    energyB bqm (bestSolution bqm x0 tenure fuel) ≤ energyB bqm x0 := by
  suffices h : ∀ k, (tabuRun bqm tenure x0 k).bestE
      = energyB bqm (tabuRun bqm tenure x0 k).bestX ∧
      (tabuRun bqm tenure x0 k).bestE ≤ energyB bqm x0 by
    obtain ⟨h1, h2⟩ := h fuel
    rw [bestSolution, ← h1]
    exact h2
  intro k
  induction k with
  | zero => exact ⟨rfl, le_refl _⟩
  | succ k ih =>
      rw [tabuRun_succ]
      exact ⟨tabuStep_bestE_eq bqm tenure _ ih.1,
             le_trans (tabuStep_bestE_le bqm tenure _) ih.2⟩

/-! ## TabuSampler.sample -/

/-- A Python value passed where an int is expected: either an actual
integer or a value of some other type. -/
inductive PyNum where
  | int (k : ℤ)
  | other
deriving DecidableEq

/-- The `TypeError`s / `ValueError`s raised by `TabuSampler.sample`.  The
`initial_states` type check and the variable-set mismatch check are
enforced by typing in this embedding. -/
inductive TabuErr where
  | tenureTypeError
  | tenureValueError
  | numReadsTypeError
  | numReadsValueError
  | insufficientInitialStates
  | cannotTileEmpty
deriving DecidableEq

/-- The `initial_states_generator` argument. -/
inductive InitGen where
  | noneGen
  | tileGen
  | randomGen
deriving DecidableEq

/-- The default tenure of `TabuSampler.sample` line 124:
`max(min(20, len(bqm) // 4), 0)`. -/
def defaultTenure (n : ℕ) : ℤ := max (min 20 ((n : ℤ) / 4)) 0

/-- `TabuSampler.sample` (tabu/sampler.py lines 118-186): empty-model
early return, tenure defaulting and validation, `num_reads` defaulting
and validation, generator feasibility checks, then one `TabuSearch` run
per read.  Python's `random` generation of extra initial states is
abstracted by the `randomStream` argument. -/
def tabuSample {n : ℕ} (bqm : BQM n) (initial_states : Option (List (Fin n → Bool)))
    (initial_states_generator : InitGen) (num_reads : Option PyNum)
    (tenure : Option PyNum) (timeoutFuel : ℕ) (randomStream : ℕ → Fin n → Bool) :
    Except TabuErr (List (Fin n → Bool)) :=
  if n = 0 then Except.ok []
  else
    match tenure.getD (PyNum.int (defaultTenure n)) with
    | PyNum.other => Except.error TabuErr.tenureTypeError
    | PyNum.int t =>
      if ¬(0 ≤ t ∧ t < (n : ℤ)) then Except.error TabuErr.tenureValueError
      else
        let states := initial_states.getD []
        match num_reads.getD
            (PyNum.int (if states.length = 0 then 1 else (states.length : ℤ))) with
        | PyNum.other => Except.error TabuErr.numReadsTypeError
        | PyNum.int r =>
          if r < 1 then Except.error TabuErr.numReadsValueError
          else if states.length < r.toNat ∧ initial_states_generator = InitGen.noneGen then
            Except.error TabuErr.insufficientInitialStates
          else if states.length < 1 ∧ initial_states_generator = InitGen.tileGen then
            Except.error TabuErr.cannotTileEmpty
          else
            Except.ok ((List.range r.toNat).map fun k =>
              bestSolution bqm
                (match initial_states_generator with
                 | InitGen.noneGen => states.getD k (fun _ => false)
                 | InitGen.tileGen => states.getD (k % states.length) (fun _ => false)
                 | InitGen.randomGen =>
                     if k < states.length then states.getD k (fun _ => false)
                     else randomStream (k - states.length))
                t.toNat timeoutFuel)

lemma tabuSample_valid_tenure_ne {n : ℕ} (bqm : BQM n)
    (ist : Option (List (Fin n → Bool))) (gen : InitGen) (nr : Option PyNum)
    (ten : Option PyNum) (fuel : ℕ) (rs : ℕ → Fin n → Bool) (hn : 0 < n) (k : ℤ)
    (hget : ten.getD (PyNum.int (defaultTenure n)) = PyNum.int k)
    (hk0 : 0 ≤ k) (hkn : k < (n : ℤ)) :
    tabuSample bqm ist gen nr ten fuel rs ≠ Except.error TabuErr.tenureTypeError ∧
    tabuSample bqm ist gen nr ten fuel rs ≠ Except.error TabuErr.tenureValueError := by
  constructor <;>
  · rw [tabuSample, if_neg (show ¬ n = 0 by omega), hget]
    intro h
    dsimp only at h
    rw [if_neg (not_not_intro ⟨hk0, hkn⟩)] at h
    rcases hnr : nr.getD (PyNum.int (if (ist.getD []).length = 0 then 1
        else ((ist.getD []).length : ℤ))) with r | _
    · rw [hnr] at h
      dsimp only at h
      by_cases h1 : r < 1
      · rw [if_pos h1] at h
        exact absurd h (by simp)
      · rw [if_neg h1] at h
        by_cases h2 : (ist.getD []).length < r.toNat ∧ gen = InitGen.noneGen
        · rw [if_pos h2] at h
          exact absurd h (by simp)
        · rw [if_neg h2] at h
          by_cases h3 : (ist.getD []).length < 1 ∧ gen = InitGen.tileGen
          · rw [if_pos h3] at h
            exact absurd h (by simp)
          · rw [if_neg h3] at h
            exact absurd h (by simp)
    · rw [hnr] at h
      exact absurd h (by simp)

/-- C6: for a non-empty model, `TabuSampler.sample` raises `TypeError`
for a non-integer tenure and `ValueError` for an integer tenure outside
`[0, n-1]`, before any tabu run starts; every integer tenure inside the
range passes both tenure checks. -/
theorem tabu_tenure_validation {n : ℕ} (bqm : BQM n)
    (ist : Option (List (Fin n → Bool))) (gen : InitGen) (nr : Option PyNum)
    (fuel : ℕ) (rs : ℕ → Fin n → Bool) (hn : 0 < n) :
    tabuSample bqm ist gen nr (some PyNum.other) fuel rs =
      Except.error TabuErr.tenureTypeError ∧
    (∀ k : ℤ, ¬(0 ≤ k ∧ k < (n : ℤ)) →
      tabuSample bqm ist gen nr (some (PyNum.int k)) fuel rs =
        Except.error TabuErr.tenureValueError) ∧
    (∀ k : ℤ, 0 ≤ k → k < (n : ℤ) →
      tabuSample bqm ist gen nr (some (PyNum.int k)) fuel rs ≠
        Except.error TabuErr.tenureTypeError ∧
      tabuSample bqm ist gen nr (some (PyNum.int k)) fuel rs ≠
        Except.error TabuErr.tenureValueError) := by
  refine ⟨?_, ?_, ?_⟩
  · rw [tabuSample, if_neg (show ¬ n = 0 by omega)]
    rfl
  · intro k hk
    rw [tabuSample, if_neg (show ¬ n = 0 by omega)]
    simp only [Option.getD_some]
    rw [if_pos hk]
  · intro k hk0 hkn
    exact tabuSample_valid_tenure_ne bqm ist gen nr (some (PyNum.int k)) fuel rs hn k
      (Option.getD_some) hk0 hkn

/-- Witness for C6 at the 1-variable model `bqmEx1`. -/
theorem tabu_tenure_validation_witness :
    0 < 1 ∧
    (tabuSample bqmEx1 none InitGen.randomGen none (some PyNum.other) 1 (fun _ _ => false) =
      Except.error TabuErr.tenureTypeError ∧
    (∀ k : ℤ, ¬(0 ≤ k ∧ k < (1 : ℤ)) →
      tabuSample bqmEx1 none InitGen.randomGen none (some (PyNum.int k)) 1 (fun _ _ => false) =
        Except.error TabuErr.tenureValueError) ∧
    (∀ k : ℤ, 0 ≤ k → k < (1 : ℤ) →
      tabuSample bqmEx1 none InitGen.randomGen none (some (PyNum.int k)) 1 (fun _ _ => false) ≠
        Except.error TabuErr.tenureTypeError ∧
      tabuSample bqmEx1 none InitGen.randomGen none (some (PyNum.int k)) 1 (fun _ _ => false) ≠
        Except.error TabuErr.tenureValueError)) :=
  ⟨by decide,
   tabu_tenure_validation bqmEx1 none InitGen.randomGen none 1 (fun _ _ => false) (by decide)⟩

/-- C10: for every non-empty model, the default tenure
`max(min(20, n // 4), 0)` lies in `[0, n-1]`, so the tenure-validation
error branches are unreachable on the default path. -/
theorem default_tenure_safe {n : ℕ} (bqm : BQM n)
    (ist : Option (List (Fin n → Bool))) (gen : InitGen) (nr : Option PyNum)
    (fuel : ℕ) (rs : ℕ → Fin n → Bool) (hn : 0 < n) :
    (0 ≤ defaultTenure n ∧ defaultTenure n < (n : ℤ)) ∧
    tabuSample bqm ist gen nr none fuel rs ≠ Except.error TabuErr.tenureTypeError ∧
    tabuSample bqm ist gen nr none fuel rs ≠ Except.error TabuErr.tenureValueError := by
  have hbound : 0 ≤ defaultTenure n ∧ defaultTenure n < (n : ℤ) := by
    unfold defaultTenure
    have hn' : (1 : ℤ) ≤ (n : ℤ) := by exact_mod_cast hn
    rcases le_total (20 : ℤ) ((n : ℤ) / 4) with h | h
    · rw [min_eq_left h]
      constructor
      · exact le_max_left _ _ |>.trans' (by norm_num)
      · rw [max_eq_left (by norm_num)]
        omega
    · rw [min_eq_right h]
      constructor
      · exact le_max_right _ _
      · rcases le_total ((n : ℤ) / 4) 0 with h0 | h0
        · rw [max_eq_right h0]
          omega
        · rw [max_eq_left h0]
          omega
  exact ⟨hbound,
    tabuSample_valid_tenure_ne bqm ist gen nr none fuel rs hn (defaultTenure n)
      (Option.getD_none) hbound.1 hbound.2⟩

/-- Witness for C10 at the 1-variable model `bqmEx1`. -/
theorem default_tenure_safe_witness :
    0 < 1 ∧
    ((0 ≤ defaultTenure 1 ∧ defaultTenure 1 < (1 : ℤ)) ∧
    tabuSample bqmEx1 none InitGen.randomGen none none 1 (fun _ _ => false) ≠
      Except.error TabuErr.tenureTypeError ∧
    tabuSample bqmEx1 none InitGen.randomGen none none 1 (fun _ _ => false) ≠
      Except.error TabuErr.tenureValueError) :=
  ⟨by decide,
   default_tenure_safe bqmEx1 none InitGen.randomGen none 1 (fun _ _ => false) (by decide)⟩

/-! ## Degenerate zero-variable inputs -/

lemma energyB_offset_zero (bqm : BQM 0) (x : Fin 0 → Bool) :
    energyB bqm x = bqm.offset := by
  simp [energyB, energyQ]

/-- An empty model with a non-zero offset. -/
def bqmOff : BQM 0 := ⟨fun i => i.elim0, fun i _ => i.elim0, 5/2⟩

/-- Counterexample to C7: on a zero-variable model with offset `5/2`,
`OrangSolver.sample` succeeds but the returned energy is the offset
`5/2`, not zero (`bqm.energies` of the empty assignment evaluates the
objective, which is the offset). -/
theorem degenerate_zero_energy_cex :
    (orangSolverSample defaultProps bqmOff 1 [] =
      Except.ok ⟨[((fun _ => false), 5/2)], [1]⟩) ∧ (5/2 : ℚ) ≠ 0 := by
  constructor
  · rw [orangSolverSample, if_pos rfl, energyB_offset_zero]
    simp [bqmOff, List.replicate]
  · norm_num

/-- C7 (amended): every zero-variable call succeeds: `TabuSampler.sample`
returns an empty sample set; `OrangSolver.sample` and
`OrangSampler.sample` return `num_reads` empty assignments whose energy
equals the model's offset (zero when the offset is zero);
`OrangSampler.sample` reports `log_partition_function = 0.0` and, when
marginals are requested, empty marginal mappings. -/
theorem degenerate_trivial_success (props : SolverProps) (oracle : SamplerOracle 0)
    (bqm : BQM 0) (ist : Option (List (Fin 0 → Bool))) (gen : InitGen)
    (nr tenure : Option PyNum) (fuel : ℕ) (rs : ℕ → Fin 0 → Bool)
    (r : ℕ) (ri : ℤ) (order : List (Fin 0)) (beta : ℚ) (marg : Bool)
    (seed : Option ℤ) :
    tabuSample bqm ist gen nr tenure fuel rs = Except.ok [] ∧
    orangSolverSample props bqm r order =
      Except.ok ⟨List.replicate r ((fun _ => false), bqm.offset), List.replicate r 1⟩ ∧
    orangSamplerSample props oracle bqm ri order beta marg seed =
      Except.ok ⟨List.replicate ri.toNat ((fun _ => false), bqm.offset), 0,
                 if marg then some [] else none, if marg then some [] else none⟩ := by
  refine ⟨?_, ?_, ?_⟩
  · rw [tabuSample, if_pos rfl]
  · rw [orangSolverSample, if_pos rfl, energyB_offset_zero]
  · rw [orangSamplerSample, if_pos rfl, energyB_offset_zero]

end DWaveSamplers
